import Mathlib

/-!
Verification of the polling-with-timeout primitive and the mailbox wait
engine of the `@tempyemail/e2e-testing` client SDK.

The repository ships two versions of `pollUntil` (`src/utils/polling.ts`):
a `Promise.race` between an infinite probe loop and a timeout timer, and a
single-threaded loop that checks elapsed time explicitly after each probe.
Both are embedded below, under the assumption (made by the specification's
timing scenarios and the repository's fake-timer tests) that each probe
invocation is instantaneous, so that time advances only during the
inter-tick waits.  Durations are modelled as rationals: JS numbers, with
the backoff multiplying by 1.5 each tick.
-/

namespace TempyEmail

/-- Milliseconds (a JS number). -/
abbrev Ms := ℚ

/-- JS `Math.min` on two numbers (neither is `NaN` in this development). -/
def jsMin (a b : Ms) : Ms := if a ≤ b then a else b

/-- `PollOptions` from `src/types.ts`, with the default values that
`pollUntil` destructures (`timeout = 30000`, `interval = 1000`,
`maxInterval = 5000`, `backoff = true`). -/
structure PollOptions where
  timeout : Ms := 30000
  interval : Ms := 1000
  maxInterval : Ms := 5000
  backoff : Bool := true
deriving DecidableEq, Repr

/-- Outcome of one probe invocation (`await fn()`), taken as instantaneous:
a defined non-null JS value, JS `null`, JS `undefined`, or a rejection
carrying an error of type `ε`. -/
inductive ProbeOut (α ε : Type) : Type
  | value : α → ProbeOut α ε
  | nullv : ProbeOut α ε
  | undefv : ProbeOut α ε
  | raise : ε → ProbeOut α ε
deriving DecidableEq, Repr

/-- How a `pollUntil` call settles: resolution with a value, resolution with
JS `undefined` (possible in the loop version, whose guard is only
`result !== null`), rejection with the timeout error carrying the configured
timeout, or rejection with an error the probe raised. -/
inductive PollResult (α ε : Type) : Type
  | success : α → PollResult α ε
  | successUndefv : PollResult α ε
  | timeoutFailure : Ms → PollResult α ε
  | probeFailure : ε → PollResult α ε
deriving DecidableEq, Repr

/-- Rendering of a JS number in a template literal, for the integral values
that appear in timeout messages (`${3000}` is `"3000"`). -/
def jsNumStr (q : ℚ) : String := if q.den = 1 then toString q.num else toString q

/-- The message of the error both `pollUntil` versions throw on timeout:
`` `Polling timeout after ${timeout}ms` ``. -/
def timeoutMessage (t : Ms) : String := "Polling timeout after " ++ jsNumStr t ++ "ms"

/-- The value of `currentInterval` after `n` updates.  It starts at
`options.interval`; after each wait, when backoff is enabled, the code sets
`currentInterval = Math.min(currentInterval * 1.5, maxInterval)`.  This
update is identical in the two `pollUntil` versions, and the wait after
probe `n` (counting probes from `0`) lasts `nthInterval o n`. -/
def nthInterval (o : PollOptions) : ℕ → Ms
  | 0 => o.interval
  | n + 1 => if o.backoff then jsMin (nthInterval o n * (3 / 2)) o.maxInterval else nthInterval o n

/-- The instant of probe invocation `n`: probe `0` is immediate, and probe
`n + 1` happens one wait of `nthInterval o n` after probe `n`. -/
def probeTime (o : PollOptions) : ℕ → Ms
  | 0 => 0
  | n + 1 => probeTime o n + nthInterval o n

/-- The single-threaded loop version of `pollUntil`: probe; return when
`result !== null` (JS strict inequality, so `undefined` is also returned, as
a resolution with `undefined`); otherwise throw the timeout error when the
elapsed time since start has reached `timeout`, else wait for the current
interval, update it, and repeat.  A probe rejection propagates immediately.
`fuel` bounds the number of iterations (`none` means the bound was hit);
`n` is the index of the current tick.  The settled result is returned
together with the tick index at settlement and the elapsed time. -/
def pollUntilLoop (o : PollOptions) (probe : ℕ → ProbeOut α ε) :
    ℕ → ℕ → Option (PollResult α ε × ℕ × Ms)
  | 0, _ => none
  | fuel + 1, n =>
    match probe n with
    | .value v => some (.success v, n, probeTime o n)
    | .undefv => some (.successUndefv, n, probeTime o n)
    | .raise e => some (.probeFailure e, n, probeTime o n)
    | .nullv =>
      if o.timeout ≤ probeTime o n then
        some (.timeoutFailure o.timeout, n, probeTime o n)
      else
        pollUntilLoop o probe fuel (n + 1)

/-- The `Promise.race` version of `pollUntil`, under the instantaneous-probe
assumption.  The timeout timer is scheduled at call time for `timeout` ms;
each later probe tick `n ≥ 1` is released by a wait timer scheduled after it,
so whenever `timeout ≤ probeTime o n` the race has already been settled by
the timer (on a tie the timer fires first, having been registered first),
with the timeout rejection observed at elapsed time `timeout`.  Probe `0`
runs in the same turn as the call, before any timer can fire.  The probe
loop continues past both `null` and `undefined` (`result !== null &&
result !== undefined`). -/
def pollUntilRace (o : PollOptions) (probe : ℕ → ProbeOut α ε) :
    ℕ → ℕ → Option (PollResult α ε × ℕ × Ms)
  | 0, _ => none
  | fuel + 1, n =>
    if 0 < n ∧ o.timeout ≤ probeTime o n then
      some (.timeoutFailure o.timeout, n, o.timeout)
    else
      match probe n with
      | .value v => some (.success v, n, probeTime o n)
      | .raise e => some (.probeFailure e, n, probeTime o n)
      | .nullv => pollUntilRace o probe fuel (n + 1)
      | .undefv => pollUntilRace o probe fuel (n + 1)

/-- The options of the test scenario `timeout: 3000, interval: 1000`
(`maxInterval` and `backoff` keep their defaults `5000` and `true`). -/
def opts3000 : PollOptions := { timeout := 3000 }

/-- A probe that yields `null` on every invocation. -/
def probeAlwaysNull : ℕ → ProbeOut ℕ String := fun _ => .nullv

/-- A probe that yields `undefined` on every invocation. -/
def probeUndefForever : ℕ → ProbeOut ℕ String := fun _ => .undefv

/-- A probe that yields `undefined`, then `null`, then the value `7`
(the shape of the repository's test `should only treat null as no result`). -/
def probeUndefNullThen7 : ℕ → ProbeOut ℕ String := fun n =>
  if n = 0 then .undefv else if n = 1 then .nullv else .value 7

/-- The options of the counterexample separating the two `pollUntil`
versions: `timeout: 1000, interval: 1000`. -/
def opts1000 : PollOptions := { timeout := 1000 }

/-- `bs` is a prefix of `as`, on character lists. -/
def startsWithCh : List Char → List Char → Bool
  | _, [] => true
  | [], _ :: _ => false
  | a :: as, b :: bs => a == b && startsWithCh as bs

/-- `needle` occurs contiguously in `hay`, on character lists. -/
def containsCh : List Char → List Char → Bool
  | [], needle => needle.isEmpty
  | a :: as, needle => startsWithCh (a :: as) needle || containsCh as needle

/-- JS `hay.includes(needle)`: substring containment. -/
def strIncludes (hay needle : String) : Bool :=
  containsCh hay.toList needle.toList

/-- JS `a || b` on a nullable string `a`: `undefined` and `""` are falsy,
so they select `b`; any other string is returned itself. -/
def jsOrStr (a : Option String) (b : String) : String :=
  match a with
  | some s => if s.isEmpty then b else s
  | none => b

/-- The fields of the `Email` record (`src/types.ts`) that the wait engine
reads.  `«from»` is the sender (the source's `from`, a Lean keyword);
`bodyHtml` is optional (`bodyHtml?: string`), modelled as `none` when the
field is absent. -/
structure Email where
  id : String := ""
  «from» : String := ""
  subject : String := ""
  bodyText : String := ""
  bodyHtml : Option String := none
deriving DecidableEq, Repr

/-- A filter supplied to `waitForEmail`: either a plain string, matched by
substring containment (`message.subject.includes(subject)`), or a `RegExp`,
modelled by its `test` predicate (`subject.test(message.subject)`), which
the specification treats as an external collaborator. -/
inductive Matcher : Type
  | substr : String → Matcher
  | pattern : (String → Bool) → Matcher

/-- The `typeof subject === 'string' ? text.includes(subject) :
subject.test(text)` dispatch of `Mailbox.waitForEmail`. -/
def Matcher.matches : Matcher → String → Bool
  | .substr s, text => strIncludes text s
  | .pattern t, text => t text

/-- Whether an optional criterion accepts `text`: an absent criterion
matches anything. -/
def matchesOpt (crit : Option Matcher) (text : String) : Bool :=
  match crit with
  | some f => f.matches text
  | none => true

/-- A message passes the probe's filters when the optional subject criterion
accepts its subject and the optional from criterion accepts its sender. -/
def emailPasses (subj frm : Option Matcher) (m : Email) : Bool :=
  matchesOpt subj m.subject && matchesOpt frm m.«from»

/-- The scan inside one probe tick of `Mailbox.waitForEmail`: walk the
fetched list in order; skip a message when a supplied subject filter does
not match its subject, or a supplied from filter does not match its sender
(the two `continue`s); return the first survivor; yield `none` (the probe's
`return null`) when the loop falls through. -/
def waitForEmailScan (subj frm : Option Matcher) : List Email → Option Email
  | [] => none
  | m :: rest =>
    if (match subj with
        | some f => !(f.matches m.subject)
        | none => false) then
      waitForEmailScan subj frm rest
    else if (match frm with
        | some f => !(f.matches m.«from»)
        | none => false) then
      waitForEmailScan subj frm rest
    else
      some m

/-- The probe `waitForEmail` hands to `pollUntil`: fetch the full message
list for this tick (`this.getMessages()`, which may reject — `source n` is
the fetch outcome at tick `n`), scan it, and yield the first match or
`null`. -/
def waitForEmailProbe (subj frm : Option Matcher)
    (source : ℕ → Except ε (List Email)) (n : ℕ) : ProbeOut Email ε :=
  match source n with
  | .error e => .raise e
  | .ok msgs =>
    match waitForEmailScan subj frm msgs with
    | some m => .value m
    | none => .nullv

/-- The `PollOptions` that `waitForEmail` builds:
`{ timeout, interval: pollInterval, backoff: true }` (`pollInterval`
defaults to `1000`; `maxInterval` keeps its default `5000`). -/
def waitForEmailOpts (timeout pollInterval : Ms) : PollOptions :=
  { timeout := timeout, interval := pollInterval, maxInterval := 5000, backoff := true }

/-- A full `Mailbox.waitForEmail` run: `pollUntil` (the `Promise.race`
version, which the repository's test suite validates) driving the filter
probe. -/
def waitForEmail (timeout pollInterval : Ms) (subj frm : Option Matcher)
    (source : ℕ → Except ε (List Email)) (fuel : ℕ) :
    Option (PollResult Email ε × ℕ × Ms) :=
  pollUntilRace (waitForEmailOpts timeout pollInterval)
    (waitForEmailProbe subj frm source) fuel 0

/-- The distinguishable failures of the wait operations, tagged by the
construction site of the thrown `Error` and carrying the data interpolated
into its message. -/
inductive WaitError (ε : Type) : Type
  | timeoutError : Ms → WaitError ε
  | sourceError : ε → WaitError ε
  | otpError : String → WaitError ε
  | linkError : String → WaitError ε

/-- The message of each wait failure; `msgOf` renders the message of an
underlying source error. -/
def WaitError.message (msgOf : ε → String) : WaitError ε → String
  | .timeoutError t => timeoutMessage t
  | .sourceError e => msgOf e
  | .otpError subject => "No OTP code found in email. Subject: \"" ++ subject ++ "\""
  | .linkError subject => "No verification link found in email. Subject: \"" ++ subject ++ "\""

/-- The extraction stage of `Mailbox.waitForOTP`, applied to the email that
`waitForEmail` resolved with.  `extractor` is
`pattern ? extractByPattern(email.bodyText, pattern) : extractOTP(email.bodyText)`
as a function of the plain-text body (the pattern collaborators are external
to the core).  The guard is JS `if (!otp)`: both `null` and `""` trigger the
`No OTP code found` error naming the email's subject. -/
def waitForOTPExtract (extractor : String → Option String) (email : Email) :
    Except (WaitError ε) String :=
  match extractor email.bodyText with
  | some s => if s.isEmpty then .error (.otpError email.subject) else .ok s
  | none => .error (.otpError email.subject)

/-- A full `Mailbox.waitForOTP` run: `waitForEmail` with only the `from`
criterion forwarded (no subject filter, `pollInterval` left at its default
`1000`), then the extraction stage.  A timeout or probe rejection of the
wait propagates as the corresponding failure.  (The email probe never
yields `undefined`, so the `successUndefv` branch is unreachable; it is
mapped to `none` like fuel exhaustion.) -/
def waitForOTP (timeout : Ms) (frm : Option Matcher)
    (source : ℕ → Except ε (List Email)) (extractor : String → Option String)
    (fuel : ℕ) : Option (Except (WaitError ε) String) :=
  match waitForEmail timeout 1000 none frm source fuel with
  | some (.success email, _, _) => some (waitForOTPExtract extractor email)
  | some (.successUndefv, _, _) => none
  | some (.timeoutFailure t, _, _) => some (.error (.timeoutError t))
  | some (.probeFailure e, _, _) => some (.error (.sourceError e))
  | none => none

/-- The tail of `Mailbox.waitForLink` after the body has been selected:
`extractVerificationLink(body, pattern)` is abstracted by `linkOf`; the
guard is JS `if (!link)`, raising the `No verification link found` error
naming the subject on `null` or `""`. -/
def linkStep (linkOf : String → Option String) (body subject : String) :
    Except (WaitError ε) String :=
  match linkOf body with
  | some l => if l.isEmpty then .error (.linkError subject) else .ok l
  | none => .error (.linkError subject)

/-- The extraction stage of `Mailbox.waitForLink`: the body handed to the
link extractor is `email.bodyHtml || email.bodyText`. -/
def waitForLinkExtract (linkOf : String → Option String) (email : Email) :
    Except (WaitError ε) String :=
  linkStep linkOf (jsOrStr email.bodyHtml email.bodyText) email.subject

/-- Body selection in the words of the claim for `waitForLink`: the
rich-text body whenever it is present (even empty), else the plain-text
body.  Stated only to be compared with the source's `jsOrStr` selection. -/
def claimedLinkBody (email : Email) : String :=
  match email.bodyHtml with
  | some h => h
  | none => email.bodyText

/-- Result of a successful JS `String.prototype.match` with a non-global
pattern: `full` is `match[0]`, and `group1` is `match[1]` — `none` models
`undefined`, when the pattern has no first capture group or the group did
not participate in the match. -/
structure MatchData where
  full : String
  group1 : Option String
deriving DecidableEq, Repr

/-- `extractByPattern` from `src/parsers/otp.ts`, with the `RegExp`
abstracted by its match function:
`const match = text.match(pattern); return match ? match[1] || match[0] : null;`. -/
def extractByPattern (matchFn : String → Option MatchData) (text : String) :
    Option String :=
  match matchFn text with
  | some m => some (jsOrStr m.group1 m.full)
  | none => none

/-- Message fixture `A(subject="X", from="a@x")` of the specification's
`waitForMessage` example. -/
def emailA : Email := { id := "A", «from» := "a@x", subject := "X" }

/-- Message fixture `B(subject="Y", from="b@x")` of the specification's
`waitForMessage` example. -/
def emailB : Email := { id := "B", «from» := "b@x", subject := "Y" }

/-- An email whose rich-text body is present but empty, distinguishing the
source's `bodyHtml || bodyText` from the claimed present-wins selection. -/
def emailEmptyHtml : Email :=
  { id := "C", «from» := "c@x", subject := "Welcome",
    bodyText := "plain text body", bodyHtml := some "" }

/-- A link extractor that finds a link in the plain-text body of
`emailEmptyHtml` and nothing anywhere else. -/
def linkOfPlain : String → Option String := fun body =>
  if body = "plain text body" then some "https://x.test/verify" else none

/-- The match function of the JS call `'abc'.match(/x*/)`: the pattern
matches the empty string at index 0, with no capture groups. -/
def matchEmptyAt0 : String → Option MatchData := fun _ => some { full := "", group1 := none }

/-- A message source that answers every fetch with the single message
`emailA`. -/
def sourceJustA : ℕ → Except String (List Email) := fun _ => .ok [emailA]

/-- An extractor that finds no code in any body. -/
def extractorNone : String → Option String := fun _ => none

/-- A probe that yields `null` once and then raises `"Network error"`. -/
def probeNullThenRaise : ℕ → ProbeOut ℕ String := fun n =>
  if n = 0 then .nullv else .raise "Network error"

/-- A probe that yields `null` once and then the value `5`. -/
def probeNullThen5 : ℕ → ProbeOut ℕ String := fun n =>
  if n = 0 then .nullv else .value 5

/-- The backoff configuration `interval: 2000, maxInterval: 1000` whose
initial interval exceeds the ceiling. -/
def optsIntervalAboveMax : PollOptions :=
  { timeout := 30000, interval := 2000, maxInterval := 1000, backoff := true }

/-- The default options with backoff disabled. -/
def optsNoBackoff : PollOptions := { backoff := false }

/-- The default `PollOptions`. -/
def optsDefault : PollOptions := {}

/-- The match function of the JS call `'Your PIN: 5678'.match(/PIN:\s*(\d4)/)`
(matched text `PIN: 5678`, first capture group `5678`), and no match on any
other text. -/
def matchPIN : String → Option MatchData := fun t =>
  if t = "Your PIN: 5678" then some { full := "PIN: 5678", group1 := some "5678" } else none

/-
Helper lemmas, shared by the claim theorems below.
-/

lemma jsMin_eq_min (a b : Ms) : jsMin a b = min a b := by
  simp [jsMin, min_def]

lemma nthInterval_nonneg (o : PollOptions) (hi : 0 ≤ o.interval)
    (hm : 0 ≤ o.maxInterval) : ∀ n, 0 ≤ nthInterval o n
  | 0 => hi
  | n + 1 => by
    have ih := nthInterval_nonneg o hi hm n
    rw [nthInterval, jsMin_eq_min]
    rcases h : o.backoff with _ | _
    · simpa using ih
    · simp only [if_pos rfl]
      exact le_min (by positivity) hm

lemma probeTime_mono (o : PollOptions) (hi : 0 ≤ o.interval)
    (hm : 0 ≤ o.maxInterval) : Monotone (probeTime o) := by
  apply monotone_nat_of_le_succ
  intro n
  rw [probeTime]
  have := nthInterval_nonneg o hi hm n
  linarith

/-- Closed form of `currentInterval` in a backoff-enabled run whose initial
interval does not exceed the ceiling. -/
lemma nthInterval_closed_form (o : PollOptions) (hb : o.backoff = true)
    (h0 : 0 ≤ o.interval) (him : o.interval ≤ o.maxInterval) :
    ∀ n, nthInterval o n = min (o.interval * (3 / 2) ^ n) o.maxInterval
  | 0 => by
    rw [nthInterval, pow_zero, mul_one, min_eq_left him]
  | n + 1 => by
    have hm0 : (0 : ℚ) ≤ o.maxInterval := le_trans h0 him
    rw [nthInterval, if_pos hb, jsMin_eq_min, nthInterval_closed_form o hb h0 him n]
    rcases le_or_lt (o.interval * (3 / 2) ^ n) o.maxInterval with hle | hlt
    · rw [min_eq_left hle, pow_succ]
      ring_nf
    · have h1 : min (o.interval * (3 / 2) ^ n) o.maxInterval = o.maxInterval :=
        min_eq_right hlt.le
      rw [h1, min_eq_right (le_mul_of_one_le_right hm0 (by norm_num)),
        min_eq_right]
      calc o.maxInterval ≤ o.interval * (3 / 2) ^ n := hlt.le
        _ ≤ o.interval * (3 / 2) ^ (n + 1) := by
            apply mul_le_mul_of_nonneg_left _ h0
            exact pow_le_pow_right₀ (by norm_num) (Nat.le_succ n)

/-- C4 counterexample.  In the configuration `interval: 2000,
maxInterval: 1000` with backoff enabled, the first inter-tick delay is the
uncapped `2000`, not the claimed `min(2000 × 1.5⁰, 1000) = 1000`: the code
caps only from the second delay on. -/
theorem backoff_formula_cex :
    nthInterval optsIntervalAboveMax 0 = 2000
  ∧ min (optsIntervalAboveMax.interval * (3 / 2) ^ (0 : ℕ))
      optsIntervalAboveMax.maxInterval = 1000
  ∧ (2000 : ℚ) ≠ 1000 := by
  refine ⟨rfl, ?_, by norm_num⟩
  norm_num [optsIntervalAboveMax]

/-- C4 (amended).  In every backoff-enabled run whose non-negative initial
interval `i` does not exceed the ceiling `m`, the `n`-th inter-tick delay
(counting waits from `n = 0`, so the claim's `n-1` is this `n`) equals
`min(i × 1.5ⁿ, m)`. -/
theorem backoff_formula_of_le_max (o : PollOptions) (hb : o.backoff = true)
    (h0 : 0 ≤ o.interval) (him : o.interval ≤ o.maxInterval) (n : ℕ) :
    nthInterval o n = min (o.interval * (3 / 2) ^ n) o.maxInterval :=
  nthInterval_closed_form o hb h0 him n

/-- Witness for C4's amended theorem at the default options, tick 2. -/
theorem backoff_formula_of_le_max_witness :
    nthInterval optsDefault 2
      = min (optsDefault.interval * (3 / 2) ^ (2 : ℕ)) optsDefault.maxInterval :=
  backoff_formula_of_le_max optsDefault rfl (by norm_num [optsDefault])
    (by norm_num [optsDefault]) 2

/-- C5 counterexample.  In the non-negative configuration `interval: 2000,
maxInterval: 1000` with backoff enabled, the current interval starts above
the maximum (violating `current ≤ max`) and then decreases to the cap on
the next tick (violating monotone non-decrease). -/
theorem interval_invariant_cex :
    nthInterval optsIntervalAboveMax 0 = 2000
  ∧ optsIntervalAboveMax.maxInterval = 1000
  ∧ ¬ nthInterval optsIntervalAboveMax 0 ≤ optsIntervalAboveMax.maxInterval
  ∧ nthInterval optsIntervalAboveMax 1 = 1000
  ∧ ¬ nthInterval optsIntervalAboveMax 0 ≤ nthInterval optsIntervalAboveMax 1 := by
  refine ⟨rfl, rfl, ?_, ?_, ?_⟩
  · show ¬ (2000 : ℚ) ≤ 1000
    norm_num
  · norm_num [nthInterval, jsMin, optsIntervalAboveMax]
  · rw [show nthInterval optsIntervalAboveMax 1 = 1000 by
      norm_num [nthInterval, jsMin, optsIntervalAboveMax]]
    show ¬ (2000 : ℚ) ≤ 1000
    norm_num

/-- C5 (amended).  With backoff enabled and a non-negative initial interval
that does not exceed the maximum, the current interval stays within
`initial ≤ current ≤ max` and is monotonically non-decreasing across ticks;
with backoff disabled, every inter-tick delay equals the initial
interval. -/
theorem interval_invariant (o : PollOptions) (n : ℕ) :
    (o.backoff = true → 0 ≤ o.interval → o.interval ≤ o.maxInterval →
       o.interval ≤ nthInterval o n ∧ nthInterval o n ≤ o.maxInterval
         ∧ nthInterval o n ≤ nthInterval o (n + 1))
  ∧ (o.backoff = false → nthInterval o n = o.interval) := by
  constructor
  · intro hb h0 him
    have hpow : ∀ m : ℕ, (1 : ℚ) ≤ (3 / 2) ^ m := fun m =>
      one_le_pow₀ (by norm_num)
    have hform := nthInterval_closed_form o hb h0 him
    refine ⟨?_, ?_, ?_⟩
    · rw [hform n]
      exact le_min (le_mul_of_one_le_right h0 (hpow n)) him
    · rw [hform n]
      exact min_le_right _ _
    · rw [hform n, hform (n + 1)]
      apply min_le_min _ le_rfl
      exact mul_le_mul_of_nonneg_left
        (pow_le_pow_right₀ (by norm_num) (Nat.le_succ n)) h0
  · intro hb
    induction n with
    | zero => rfl
    | succ n ih => rw [nthInterval, hb, if_neg (by simp), ih]

/-- Witness for C5's amended theorem: the backoff-enabled part at the
default options, tick 2, and the backoff-disabled part at tick 2. -/
theorem interval_invariant_witness :
    (optsDefault.interval ≤ nthInterval optsDefault 2
      ∧ nthInterval optsDefault 2 ≤ optsDefault.maxInterval
      ∧ nthInterval optsDefault 2 ≤ nthInterval optsDefault 3)
  ∧ nthInterval optsNoBackoff 2 = optsNoBackoff.interval :=
  ⟨(interval_invariant optsDefault 2).1 rfl (by norm_num [optsDefault])
      (by norm_num [optsDefault]),
    (interval_invariant optsNoBackoff 2).2 rfl⟩

/-- C1.  The `Promise.race` version of `pollUntil` resolves immediately with
the falsy-but-defined values `0`, `false` and `""`, polls on past
`undefined` and `null` to the next tick (here resolving with `7` on the
third call), as the claim states; but the loop version's guard is only
`result !== null`, so a probe yielding `undefined` resolves it at tick `0`
with `undefined` instead of continuing — contradicting the claim and the
repository's own test `should only treat null as no result`. -/
theorem pollUntil_absent_sentinel_bug :
    pollUntilRace opts3000 (fun _ => ProbeOut.value (ε := String) (0 : ℕ)) 1 0
      = some (.success 0, 0, 0)
  ∧ pollUntilRace opts3000 (fun _ => ProbeOut.value (ε := String) false) 1 0
      = some (.success false, 0, 0)
  ∧ pollUntilRace opts3000 (fun _ => ProbeOut.value (ε := String) "") 1 0
      = some (.success "", 0, 0)
  ∧ pollUntilRace opts3000 probeUndefNullThen7 5 0 = some (.success 7, 2, 2500)
  ∧ pollUntilLoop opts3000 probeUndefForever 5 0 = some (.successUndefv, 0, 0) := by
  refine ⟨rfl, rfl, rfl, ?_, rfl⟩
  norm_num [pollUntilRace, probeTime, nthInterval, jsMin, opts3000, probeUndefNullThen7]

/-- C2.  With `timeout: 3000, interval: 1000` (backoff at its default
`true`) and a probe that always yields `null` and never raises, the
`Promise.race` version rejects with `"Polling timeout after 3000ms"` at
elapsed time exactly `3000` ms, inside the claimed `[3000, 4000)` window;
but the loop version only notices the deadline at the next probe tick, at
elapsed `4750` ms (delays `1000 + 1500 + 2250`), outside the claimed window
— contradicting the claim and the repository's own test
`should timeout when condition is never met`. -/
theorem pollUntil_timeout_scenario_bug :
    pollUntilRace opts3000 probeAlwaysNull 5 0 = some (.timeoutFailure 3000, 3, 3000)
  ∧ timeoutMessage 3000 = "Polling timeout after 3000ms"
  ∧ ((3000 : ℚ) ≤ 3000 ∧ (3000 : ℚ) < 4000)
  ∧ pollUntilLoop opts3000 probeAlwaysNull 5 0 = some (.timeoutFailure 3000, 3, 4750)
  ∧ ¬ (4750 : ℚ) < 4000 := by
  refine ⟨?_, by decide, by norm_num, ?_, by norm_num⟩
  · norm_num [pollUntilRace, probeTime, nthInterval, jsMin, opts3000, probeAlwaysNull]
  · norm_num [pollUntilLoop, probeTime, nthInterval, jsMin, opts3000, probeAlwaysNull]

/-- C3 counterexample.  A probe that always yields `undefined`, under
`timeout: 1000, interval: 1000`, separates the two `pollUntil` versions:
the race version treats `undefined` as absent and rejects with the timeout
error at tick 1, while the loop version resolves with `undefined` at
tick 0. -/
theorem race_loop_not_equivalent_cex :
    pollUntilRace opts1000 probeUndefForever 3 0 = some (.timeoutFailure 1000, 1, 1000)
  ∧ pollUntilLoop opts1000 probeUndefForever 3 0 = some (.successUndefv, 0, 0)
  ∧ pollUntilRace opts1000 probeUndefForever 3 0
      ≠ pollUntilLoop opts1000 probeUndefForever 3 0 := by
  have h1 : pollUntilRace opts1000 probeUndefForever 3 0
      = some (.timeoutFailure 1000, 1, 1000) := by
    norm_num [pollUntilRace, probeTime, nthInterval, jsMin, opts1000, probeUndefForever]
  have h2 : pollUntilLoop opts1000 probeUndefForever 3 0 = some (.successUndefv, 0, 0) := rfl
  refine ⟨h1, h2, ?_⟩
  rw [h1, h2]
  simp

/-- Both `pollUntil` versions, started at tick `n` with `fuel` iterations
left, settle identically on the first decisive probe outcome (a value or a
raised error) when every earlier tick yields `null` and the decisive tick
happens strictly before the timeout. -/
lemma race_loop_decisive (o : PollOptions) (probe : ℕ → ProbeOut α ε)
    (hi : 0 ≤ o.interval) (hm : 0 ≤ o.maxInterval) :
    ∀ (k n fuel : ℕ), k < fuel →
      (∀ j, n ≤ j → j < n + k → probe j = .nullv) →
      probeTime o (n + k) < o.timeout →
      (∀ v, probe (n + k) = .value v →
          pollUntilRace o probe fuel n = some (.success v, n + k, probeTime o (n + k))
        ∧ pollUntilLoop o probe fuel n = some (.success v, n + k, probeTime o (n + k)))
      ∧ (∀ e, probe (n + k) = .raise e →
          pollUntilRace o probe fuel n = some (.probeFailure e, n + k, probeTime o (n + k))
        ∧ pollUntilLoop o probe fuel n = some (.probeFailure e, n + k, probeTime o (n + k))) := by
  intro k
  induction k with
  | zero =>
    intro n fuel hfuel _ ht
    obtain ⟨f, rfl⟩ : ∃ f, fuel = f + 1 := ⟨fuel - 1, by omega⟩
    simp only [Nat.add_zero] at ht ⊢
    have hrace : ¬ (0 < n ∧ o.timeout ≤ probeTime o n) := by
      rintro ⟨_, hle⟩
      exact absurd hle (not_le.mpr ht)
    constructor
    · intro v hv
      constructor
      · rw [pollUntilRace, if_neg hrace, hv]
      · rw [pollUntilLoop, hv]
    · intro e he
      constructor
      · rw [pollUntilRace, if_neg hrace, he]
      · rw [pollUntilLoop, he]
  | succ k ih =>
    intro n fuel hfuel hnull ht
    obtain ⟨f, rfl⟩ : ∃ f, fuel = f + 1 := ⟨fuel - 1, by omega⟩
    have hn : probe n = .nullv := hnull n le_rfl (by omega)
    have hmono := probeTime_mono o hi hm (show n ≤ n + (k + 1) by omega)
    have hlt : probeTime o n < o.timeout := lt_of_le_of_lt hmono ht
    have hrace : ¬ (0 < n ∧ o.timeout ≤ probeTime o n) := by
      rintro ⟨_, hle⟩
      exact absurd hle (not_le.mpr hlt)
    have hidx : n + 1 + k = n + (k + 1) := by omega
    have ihh := ih (n + 1) f (by omega)
      (fun j h1 h2 => hnull j (by omega) (by omega))
      (by rw [hidx]; exact ht)
    rw [hidx] at ihh
    constructor
    · intro v hv
      obtain ⟨hr, hl⟩ := ihh.1 v hv
      constructor
      · rw [pollUntilRace, if_neg hrace, hn, hr]
      · rw [pollUntilLoop, hn, if_neg (not_le.mpr hlt), hl]
    · intro e he
      obtain ⟨hr, hl⟩ := ihh.2 e he
      constructor
      · rw [pollUntilRace, if_neg hrace, hn, hr]
      · rw [pollUntilLoop, hn, if_neg (not_le.mpr hlt), hl]

/-- C3 (amended).  The two `pollUntil` versions agree — same settlement,
same tick, same elapsed time — for every non-negative configuration and
every probe whose ticks before the first decisive one yield `null` (not
`undefined`) and whose first decisive outcome (a value or an error) occurs
strictly before the timeout.  Outside these conditions they differ: a probe
yielding `undefined` resolves the loop version but not the race version
(`race_loop_not_equivalent_cex`), and on timeout the two reject at
different elapsed times (`pollUntil_timeout_scenario_bug`). -/
theorem race_loop_agree_before_timeout (o : PollOptions) (probe : ℕ → ProbeOut α ε)
    (k fuel : ℕ) (hi : 0 ≤ o.interval) (hm : 0 ≤ o.maxInterval)
    (hfuel : k < fuel) (hnull : ∀ j, j < k → probe j = .nullv)
    (ht : probeTime o k < o.timeout)
    (hv : probe k ≠ .nullv) (hu : probe k ≠ .undefv) :
    pollUntilRace o probe fuel 0 = pollUntilLoop o probe fuel 0 := by
  have h := race_loop_decisive o probe hi hm k 0 fuel hfuel
    (fun j _ h2 => hnull j (by omega)) (by simpa using ht)
  rcases hpk : probe k with v | _ | _ | e
  · rw [zero_add] at h
    obtain ⟨hr, hl⟩ := h.1 v hpk
    rw [hr, hl]
  · exact absurd hpk hv
  · exact absurd hpk hu
  · rw [zero_add] at h
    obtain ⟨hr, hl⟩ := h.2 e hpk
    rw [hr, hl]

/-- Witness for C3's amended theorem: a probe yielding `null` then the
value `5`, under `timeout: 3000, interval: 1000`. -/
theorem race_loop_agree_before_timeout_witness :
    pollUntilRace opts3000 probeNullThen5 3 0 = pollUntilLoop opts3000 probeNullThen5 3 0 :=
  race_loop_agree_before_timeout opts3000 probeNullThen5 1 3
    (by norm_num [opts3000]) (by norm_num [opts3000]) (by norm_num)
    (by intro j hj
        have : j = 0 := by omega
        subst this
        rfl)
    (by norm_num [probeTime, nthInterval, opts3000])
    (by decide) (by decide)

/-- C8.  In both `pollUntil` versions, when the probe yields `null` on
every tick before `k` and raises `e` at tick `k`, strictly before the
timeout, the operation rejects with exactly `e`, settling at tick `k` (so
exactly `k + 1` probe invocations happen and no retry follows), and the
rejection is not replaced by the timeout error. -/
theorem probe_error_propagates (o : PollOptions) (probe : ℕ → ProbeOut α ε)
    (k fuel : ℕ) (e : ε) (hi : 0 ≤ o.interval) (hm : 0 ≤ o.maxInterval)
    (hfuel : k < fuel) (hnull : ∀ j, j < k → probe j = .nullv)
    (he : probe k = .raise e) (ht : probeTime o k < o.timeout) :
    pollUntilRace o probe fuel 0 = some (.probeFailure e, k, probeTime o k)
  ∧ pollUntilLoop o probe fuel 0 = some (.probeFailure e, k, probeTime o k) := by
  have h := race_loop_decisive o probe hi hm k 0 fuel hfuel
    (fun j _ h2 => hnull j (by omega)) (by simpa using ht)
  rw [zero_add] at h
  exact h.2 e he

/-- Witness for C8: a probe that yields `null` once and then raises
`"Network error"`, under `timeout: 3000, interval: 1000`. -/
theorem probe_error_propagates_witness :
    pollUntilRace opts3000 probeNullThenRaise 3 0
      = some (.probeFailure "Network error", 1, probeTime opts3000 1)
  ∧ pollUntilLoop opts3000 probeNullThenRaise 3 0
      = some (.probeFailure "Network error", 1, probeTime opts3000 1) :=
  probe_error_propagates opts3000 probeNullThenRaise 1 3 "Network error"
    (by norm_num [opts3000]) (by norm_num [opts3000]) (by norm_num)
    (by intro j hj
        have : j = 0 := by omega
        subst this
        rfl)
    (by decide)
    (by norm_num [probeTime, nthInterval, opts3000])

/-- The probe scan of `waitForEmail` returns the first message of the
fetched list passing both optional filters. -/
lemma scan_eq_find (subj frm : Option Matcher) :
    ∀ msgs : List Email,
      waitForEmailScan subj frm msgs = msgs.find? (emailPasses subj frm)
  | [] => rfl
  | m :: rest => by
    have ih := scan_eq_find subj frm rest
    rcases subj with _ | f1 <;> rcases frm with _ | f2
    · simp [waitForEmailScan, emailPasses, matchesOpt, ih, List.find?_cons]
    · cases hb : f2.matches m.«from» <;>
        simp [waitForEmailScan, emailPasses, matchesOpt, hb, ih, List.find?_cons]
    · cases hb : f1.matches m.subject <;>
        simp [waitForEmailScan, emailPasses, matchesOpt, hb, ih, List.find?_cons]
    · cases hb : f1.matches m.subject <;> cases hb2 : f2.matches m.«from» <;>
        simp [waitForEmailScan, emailPasses, matchesOpt, hb, hb2, ih, List.find?_cons]

/-- C6.  On each probe tick `waitForEmail` scans the freshly fetched list
in order and yields the first message accepted by the optional subject and
sender matchers (a supplied string matching by substring containment, a
pattern by its test); on the specification's example
`[A(subject="X"), B(subject="Y")]` with subject criterion `"Y"` the result
is `B`, not `A`; and when no message passes both filters the tick yields
`null` ("no result yet"). -/
theorem waitForEmail_first_match :
    (∀ (subj frm : Option Matcher) (msgs : List Email),
       waitForEmailScan subj frm msgs = msgs.find? (emailPasses subj frm))
  ∧ waitForEmailScan (some (Matcher.substr "Y")) none [emailA, emailB] = some emailB
  ∧ (∀ (subj frm : Option Matcher) (msgs : List Email),
       (∀ m ∈ msgs, emailPasses subj frm m = false) →
       waitForEmailScan subj frm msgs = none) := by
  refine ⟨fun subj frm msgs => scan_eq_find subj frm msgs, by decide, ?_⟩
  intro subj frm msgs h
  rw [scan_eq_find, List.find?_eq_none]
  intro x hx
  simp [h x hx]

/-- Witness for C6's hypothesis-bearing conjunct: with subject criterion
`"Z"` neither fixture message passes, and the scan yields `null`. -/
theorem waitForEmail_first_match_witness :
    waitForEmailScan (some (Matcher.substr "Z")) none [emailA, emailB] = none :=
  waitForEmail_first_match.2.2 _ _ _ (by decide)

/-- C7.  Whenever a `waitForOTP` run's underlying `waitForEmail` resolves
with a message but the code extractor (custom pattern or default) yields
nothing on its plain-text body, the run fails with the extraction error —
whose message names the message's subject — and that error is distinct
from the poller's timeout error, both as a tagged failure and by message,
for every timeout value: the message arrived, yet the run still fails, with
a different error. -/
theorem waitForOTP_extraction_error {ε : Type} (msgOf : ε → String) (timeout : Ms)
    (frm : Option Matcher) (source : ℕ → Except ε (List Email))
    (extractor : String → Option String) (email : Email) (fuel n : ℕ) (tEnd : Ms)
    (hfound : waitForEmail timeout 1000 none frm source fuel
      = some (.success email, n, tEnd))
    (hx : extractor email.bodyText = none) :
    waitForOTP timeout frm source extractor fuel
      = some (.error (.otpError email.subject))
  ∧ WaitError.message msgOf (.otpError email.subject)
      = "No OTP code found in email. Subject: \"" ++ email.subject ++ "\""
  ∧ (∀ t : Ms, WaitError.otpError (ε := ε) email.subject ≠ WaitError.timeoutError t)
  ∧ (∀ t : Ms, WaitError.message msgOf (.otpError email.subject)
      ≠ WaitError.message msgOf (.timeoutError t)) := by
  refine ⟨?_, rfl, ?_, ?_⟩
  · unfold waitForOTP
    rw [hfound]
    simp only [waitForOTPExtract, hx]
  · intro t
    simp
  · intro t h
    have h3 := congrArg String.data h
    have h4 : ('N' :: ("o OTP code found in email. Subject: \"".data
          ++ email.subject.data ++ "\"".data))
        = ('P' :: ("olling timeout after ".data ++ (jsNumStr t).data ++ "ms".data)) := h3
    injection h4 with h5 _
    exact absurd h5 (by decide)

/-- Witness for C7: a source always answering `[emailA]`, no filters, and
an extractor that never finds a code. -/
theorem waitForOTP_extraction_error_witness :
    waitForOTP (ε := String) 3000 none sourceJustA extractorNone 1
      = some (.error (.otpError "X")) :=
  (waitForOTP_extraction_error (ε := String) id 3000 none sourceJustA
    extractorNone emailA 1 0 0 rfl rfl).1

/-- C9 counterexample.  On a message whose rich-text body is present but
empty, `waitForLink` hands the link extractor the plain-text body, not the
(present) rich-text body: JS `email.bodyHtml || email.bodyText` treats the
empty string as falsy.  Here the extractor finds a link in the plain-text
body and the run succeeds, while under the claimed present-wins selection
the extractor would have received `""` and found nothing. -/
theorem waitForLink_empty_html_cex :
    emailEmptyHtml.bodyHtml = some ""
  ∧ claimedLinkBody emailEmptyHtml = ""
  ∧ jsOrStr emailEmptyHtml.bodyHtml emailEmptyHtml.bodyText = "plain text body"
  ∧ waitForLinkExtract (ε := String) linkOfPlain emailEmptyHtml
      = .ok "https://x.test/verify"
  ∧ linkOfPlain (claimedLinkBody emailEmptyHtml) = none :=
  ⟨rfl, rfl, rfl, rfl, rfl⟩

/-- C9 (amended).  `waitForLink` applies the link extractor to the
rich-text body exactly when that body is present and non-empty; when it is
absent — or present but empty, the case the original claim got wrong — the
extractor receives the plain-text body. -/
theorem waitForLink_body_selection {ε : Type} (linkOf : String → Option String)
    (email : Email) :
    (∀ h : String, email.bodyHtml = some h → h ≠ "" →
       waitForLinkExtract (ε := ε) linkOf email = linkStep linkOf h email.subject)
  ∧ (email.bodyHtml = none ∨ email.bodyHtml = some "" →
       waitForLinkExtract (ε := ε) linkOf email
         = linkStep linkOf email.bodyText email.subject) := by
  constructor
  · intro h hsome hne
    simp only [waitForLinkExtract, jsOrStr, hsome]
    rw [if_neg fun he => hne ((String.isEmpty_iff _).mp he)]
  · rintro (hnone | hempty)
    · simp only [waitForLinkExtract, jsOrStr, hnone]
    · simp only [waitForLinkExtract, jsOrStr, hempty]
      rw [if_pos (by decide : ("" : String).isEmpty = true)]

/-- Witness for C9's amended theorem at the empty-rich-text fixture. -/
theorem waitForLink_body_selection_witness :
    waitForLinkExtract (ε := String) linkOfPlain emailEmptyHtml
      = linkStep linkOfPlain emailEmptyHtml.bodyText emailEmptyHtml.subject :=
  (waitForLink_body_selection linkOfPlain emailEmptyHtml).2 (Or.inr rfl)

/-- C10 counterexample.  When the pattern matches but the whole match is
the empty string (as in JS `'abc'.match(/x*/)`), `extractByPattern` returns
the empty string — not `null`, and not a non-empty full match — refuting
the claim's "never the empty string". -/
theorem extractByPattern_empty_match_cex :
    extractByPattern matchEmptyAt0 "abc" = some ""
  ∧ matchEmptyAt0 "abc" ≠ none := by
  exact ⟨rfl, by simp [matchEmptyAt0]⟩

/-- C10 (amended).  `extractByPattern` returns `null` exactly when the
pattern does not match; on a match it returns the first capture group's
text when that group matched a non-empty string, and otherwise falls back
to the full matched text — which is itself the empty string exactly when
the whole match is empty. -/
theorem extractByPattern_characterization (matchFn : String → Option MatchData)
    (text : String) :
    (extractByPattern matchFn text = none ↔ matchFn text = none)
  ∧ (∀ md, matchFn text = some md →
       (∀ g, md.group1 = some g → g ≠ "" →
          extractByPattern matchFn text = some g)
     ∧ (md.group1 = none ∨ md.group1 = some "" →
          extractByPattern matchFn text = some md.full)) := by
  constructor
  · constructor
    · intro h
      rcases hm : matchFn text with _ | md
      · rfl
      · rw [extractByPattern, hm] at h
        simp at h
    · intro h
      rw [extractByPattern, h]
  · intro md hmd
    constructor
    · intro g hg hne
      rw [extractByPattern, hmd]
      simp only [jsOrStr, hg]
      rw [if_neg fun he => hne ((String.isEmpty_iff _).mp he)]
    · rintro (hnone | hempty)
      · rw [extractByPattern, hmd]
        simp only [jsOrStr, hnone]
      · rw [extractByPattern, hmd]
        simp only [jsOrStr, hempty]
        rw [if_pos (by decide : ("" : String).isEmpty = true)]

/-- Witness for C10's amended theorem on a pattern with a participating
non-empty first capture group. -/
theorem extractByPattern_characterization_witness :
    extractByPattern matchPIN "Your PIN: 5678" = some "5678" :=
  ((extractByPattern_characterization matchPIN "Your PIN: 5678").2
    { full := "PIN: 5678", group1 := some "5678" } rfl).1 "5678" rfl (by decide)

end TempyEmail
